import Mathlib

/-!
Verification of the per-peer replication engine (`peer.go` of the raft
package): peer state, heartbeat back-off, the append-entries
reconciliation logic, the two-phase snapshot hand-off, and the vote
solicitation exchange, embedded shallowly as pure functions over
explicit state.

Durations are modelled as natural numbers of time units; the Go code
stores `failedHeartbeats` as a float but only ever holds the integer
values 0, 1, 2, ... in it, so it is modelled as a natural number.
Transport calls that may return `nil` are modelled as `Option`-valued
inputs to the functions that consume them.
-/

namespace Raft

/-- A log entry as carried inside an append-entries request: its index and
term (the payload plays no role in the replication bookkeeping). -/
structure LogEntry where
  index : Nat
  term : Nat
  deriving DecidableEq

/-- Modelled from the spec: `newAppendEntriesRequest` and the request type
live outside `peer.go`; the spec gives the shape
`{term, prevIndex, prevTerm, leaderCommitIndex, leaderId, entries}`. -/
structure AppendEntriesRequest where
  term : Nat
  prevLogIndex : Nat
  prevLogTerm : Nat
  commitIndex : Nat
  leaderName : String
  entries : List LogEntry
  deriving DecidableEq

/-- Modelled from the spec: the append-entries response carries a success
flag, a term, the peer's commit index, the peer's conflict index (`Index()`
in the Go code), the leader-set `append` marker and the attached peer
name. -/
structure AppendEntriesResponse where
  success : Bool
  term : Nat
  commitIndex : Nat
  index : Nat
  append : Bool
  peer : String
  deriving DecidableEq

/-- The mutable per-peer state of `Peer` in `peer.go` that the replication
logic reads and writes: identity, `prevLogIndex` (the matched index), the
base heartbeat interval, the consecutive-failure counter and the period
currently programmed into the heartbeat ticker. -/
structure Peer where
  name : String
  connectionString : String
  prevLogIndex : Nat
  heartbeatInterval : Nat
  failedHeartbeats : Nat
  tickerInterval : Nat
  deriving DecidableEq

/-- `heartbeatDuration`: the back-off interval,
`heartbeatInterval * 2 ^ failedHeartbeats`. -/
def Peer.heartbeatDuration (p : Peer) : Nat :=
  p.heartbeatInterval * 2 ^ p.failedHeartbeats

/-- `resetHeartbeatInterval`: zero the failure counter and re-arm the ticker
with the base interval. -/
def Peer.resetHeartbeatInterval (p : Peer) : Peer :=
  { p with failedHeartbeats := 0, tickerInterval := p.heartbeatInterval }

/-- `backoffHeartbeat`: bump the failure counter, then re-arm the ticker with
the resulting `heartbeatDuration`. -/
def Peer.backoffHeartbeat (p : Peer) : Peer :=
  let q : Peer := { p with failedHeartbeats := p.failedHeartbeats + 1 }
  { q with tickerInterval := q.heartbeatDuration }

/-- Lines 198-201 of `peer.go`: on any received append-entries response,
reset the back-off state if the failure counter is not already zero. -/
def Peer.ackResponse (p : Peer) : Peer :=
  if p.failedHeartbeats ≠ 0 then p.resetHeartbeatInterval else p

/-- The body of the success/failure reconciliation block of
`sendAppendEntriesRequest` (lines 205-251 of `peer.go`), performed under
the peer's lock once a response has been received: returns the updated
peer state and the (possibly `append`-marked) response. -/
def Peer.applyAppendResponse (p : Peer) (serverTerm : Nat)
    (req : AppendEntriesRequest) (resp : AppendEntriesResponse) :
    Peer × AppendEntriesResponse :=
  if resp.success then
    match req.entries.getLast? with
    | some last =>
        ({ p with prevLogIndex := last.index },
         if last.term = serverTerm then { resp with append := true } else resp)
    | none => (p, resp)
  else
    if resp.term > serverTerm then
      (p, resp)
    else if resp.term = req.term ∧ resp.commitIndex ≥ p.prevLogIndex then
      ({ p with prevLogIndex := resp.commitIndex }, resp)
    else if p.prevLogIndex > 0 then
      let dec := p.prevLogIndex - 1
      ({ p with prevLogIndex := if dec > resp.index then resp.index else dec },
       resp)
    else
      (p, resp)

/-- The observable outcome of one `sendAppendEntriesRequest` call: the
updated peer state, whether a heartbeat-interval-changed event was
dispatched, and what (if anything) was handed to the server's
asynchronous inbound-response channel. -/
structure AppendSendResult where
  peer : Peer
  intervalEvent : Bool
  sentAsync : Option AppendEntriesResponse
  deriving DecidableEq

/-- `sendAppendEntriesRequest`: the transport's answer is `respOpt`
(`none` models a `nil` response). On `nil`: back off, dispatch the
interval-changed event, and return without touching the matched index.
On a received response: reset the back-off state if needed, reconcile,
attach the peer's name and forward the response. -/
def Peer.sendAppendEntriesRequest (p : Peer) (serverTerm : Nat)
    (req : AppendEntriesRequest) (respOpt : Option AppendEntriesResponse) :
    AppendSendResult :=
  match respOpt with
  | none =>
      { peer := p.backoffHeartbeat, intervalEvent := true, sentAsync := none }
  | some resp =>
      let pr := p.ackResponse.applyAppendResponse serverTerm req resp
      { peer := pr.1, intervalEvent := false,
        sentAsync := some { pr.2 with peer := p.name } }

/-- Modelled from the spec: the snapshot held by the server; its payload
includes the last included index (and term), which is all the replication
logic reads. -/
structure Snapshot where
  lastIndex : Nat
  lastTerm : Nat
  deriving DecidableEq

/-- Modelled from the spec: `newSnapshotRequest` builds the snapshot-offer
request `{leaderId, snapshotMetadata}`. -/
structure SnapshotRequest where
  leaderName : String
  lastIndex : Nat
  lastTerm : Nat
  deriving DecidableEq

/-- Modelled from the spec: the snapshot-offer request is built from the
leader's name and the server's current snapshot. -/
def newSnapshotRequest (leaderName : String) (snap : Snapshot) :
    SnapshotRequest :=
  { leaderName := leaderName, lastIndex := snap.lastIndex,
    lastTerm := snap.lastTerm }

/-- Modelled from the spec: the snapshot-offer response is an accept/reject
flag. -/
structure SnapshotResponse where
  success : Bool
  deriving DecidableEq

/-- Modelled from the spec: `newSnapshotRecoveryRequest` builds the
snapshot-recovery request `{leaderId, snapshotData}`, whose payload
includes the snapshot's last included index (`LastIndex` in the Go
code). -/
structure SnapshotRecoveryRequest where
  leaderName : String
  lastIndex : Nat
  lastTerm : Nat
  deriving DecidableEq

/-- Modelled from the spec: the snapshot-recovery request is built from the
leader's name and the server's current snapshot. -/
def newSnapshotRecoveryRequest (leaderName : String) (snap : Snapshot) :
    SnapshotRecoveryRequest :=
  { leaderName := leaderName, lastIndex := snap.lastIndex,
    lastTerm := snap.lastTerm }

/-- Modelled from the spec: the snapshot-recovery response is an
accept/reject flag plus a term and commit index. -/
structure SnapshotRecoveryResponse where
  success : Bool
  term : Nat
  commitIndex : Nat
  deriving DecidableEq

/-- The observable outcome of the snapshot path: the updated peer state,
whether a heartbeat-interval-changed event was dispatched (never, on this
path), and what was handed to the server's inbound-response channel. -/
structure SnapshotSendResult where
  peer : Peer
  intervalEvent : Bool
  sentAsync : Option SnapshotRecoveryResponse
  deriving DecidableEq

/-- `sendSnapshotRecoveryRequest` (lines 283-301 of `peer.go`): build the
recovery request from the server's snapshot; a `nil` transport answer
aborts; a rejection aborts without touching `prevLogIndex`; on success the
matched index becomes the request's `LastIndex` and the response is
forwarded via `sendAsync`. -/
def Peer.sendSnapshotRecoveryRequest (p : Peer) (serverName : String)
    (snap : Snapshot) (respOpt : Option SnapshotRecoveryResponse) :
    SnapshotSendResult :=
  let req := newSnapshotRecoveryRequest serverName snap
  match respOpt with
  | none => { peer := p, intervalEvent := false, sentAsync := none }
  | some resp =>
      if resp.success then
        { peer := { p with prevLogIndex := req.lastIndex },
          intervalEvent := false, sentAsync := some resp }
      else
        { peer := p, intervalEvent := false, sentAsync := none }

/-- `sendSnapshotRequest` (lines 260-280 of `peer.go`): send the offer; a
`nil` answer or a rejection aborts; an acceptance proceeds to the recovery
phase. `offerRespOpt` and `recoveryRespOpt` are the transport's answers to
the two phases. -/
def Peer.sendSnapshotRequest (p : Peer) (serverName : String)
    (snap : Snapshot) (offerRespOpt : Option SnapshotResponse)
    (recoveryRespOpt : Option SnapshotRecoveryResponse) :
    SnapshotSendResult :=
  match offerRespOpt with
  | none => { peer := p, intervalEvent := false, sentAsync := none }
  | some resp =>
      if resp.success then
        p.sendSnapshotRecoveryRequest serverName snap recoveryRespOpt
      else
        { peer := p, intervalEvent := false, sentAsync := none }

/-- The slice of the owning server that `flush` reads: name, current term,
log commit index, batch cap, current snapshot, and the log accessor
`getEntriesAfter index maxCount = (entries-or-none, prevTerm)`, where
`none` models a `nil` entries slice (range compacted away). -/
structure ServerView where
  name : String
  currentTerm : Nat
  commitIndex : Nat
  maxLogEntriesPerRequest : Nat
  snapshot : Snapshot
  getEntriesAfter : Nat → Nat → Option (List LogEntry) × Nat

/-- The request a single `flush` call decides to issue. -/
inductive FlushAction where
  | appendEntries (req : AppendEntriesRequest)
  | snapshotOffer (req : SnapshotRequest)
  deriving DecidableEq

/-- `flush` (lines 167-179 of `peer.go`): ask the log for the entries after
the peer's matched index; if a (possibly empty) batch comes back, build and
send an append-entries request, otherwise fall back to a snapshot offer. -/
def Peer.flush (p : Peer) (s : ServerView) : FlushAction :=
  let prevLogIndex := p.prevLogIndex
  let term := s.currentTerm
  let res := s.getEntriesAfter prevLogIndex s.maxLogEntriesPerRequest
  match res.1 with
  | some entries =>
      FlushAction.appendEntries
        { term := term, prevLogIndex := prevLogIndex, prevLogTerm := res.2,
          commitIndex := s.commitIndex, leaderName := s.name,
          entries := entries }
  | none =>
      FlushAction.snapshotOffer (newSnapshotRequest s.name s.snapshot)

/-- Modelled from the spec: the election ballot request; `peer` is the
attached sender identity (`req.peer = p` in the Go code). -/
structure RequestVoteRequest where
  term : Nat
  lastLogIndex : Nat
  lastLogTerm : Nat
  candidateName : String
  peer : Option String
  deriving DecidableEq

/-- Modelled from the spec: the election ballot response; `peer` carries the
voter identity once attached. -/
structure RequestVoteResponse where
  term : Nat
  voteGranted : Bool
  peer : Option String
  deriving DecidableEq

/-- `sendVoteRequest` (lines 308-318 of `peer.go`): attach the peer to the
request, send it; if a response comes back, attach the peer to it and
deliver it to the results channel, otherwise deliver nothing. The result
is the request as sent and the value delivered to the channel (`none` when
nothing is delivered). -/
def Peer.sendVoteRequest (p : Peer) (req : RequestVoteRequest)
    (respOpt : Option RequestVoteResponse) :
    RequestVoteRequest × Option RequestVoteResponse :=
  let reqSent := { req with peer := some p.name }
  match respOpt with
  | some resp => (reqSent, some { resp with peer := some p.name })
  | none => (reqSent, none)

/-- One wake-up of the heartbeat loop's `select`: either a signal on the
stop channel carrying the flush flag, or a ticker fire. -/
inductive HeartbeatSignal where
  | stop (doFlush : Bool)
  | tick
  deriving DecidableEq

/-- The heartbeat loop of `peer.go` (lines 144-164), driven by the sequence
of `select` outcomes it observes. The effect of one `flush` call on the
world is abstracted as a state transformer `flushFn`; the result is the
final state paired with the number of `flush` calls performed. A stop
signal with the flag set performs one final flush and returns; with the
flag clear it returns at once; a ticker fire performs a flush and loops. -/
def heartbeatRun {σ : Type} (flushFn : σ → σ) :
    σ → List HeartbeatSignal → σ × Nat
  | s, [] => (s, 0)
  | s, HeartbeatSignal.stop doFlush :: _ =>
      if doFlush then (flushFn s, 1) else (s, 0)
  | s, HeartbeatSignal.tick :: rest =>
      let stepped := heartbeatRun flushFn (flushFn s) rest
      (stepped.1, stepped.2 + 1)

/-- One transport-failure iteration of the append-entries path: the peer
state after a `sendAppendEntriesRequest` whose transport call returned
`nil`. -/
def failStep (serverTerm : Nat) (req : AppendEntriesRequest) (p : Peer) :
    Peer :=
  (p.sendAppendEntriesRequest serverTerm req none).peer

theorem Peer.ackResponse_failedHeartbeats (p : Peer) :
    p.ackResponse.failedHeartbeats = 0 := by
  unfold Peer.ackResponse Peer.resetHeartbeatInterval
  split <;> simp_all

theorem Peer.ackResponse_prevLogIndex (p : Peer) :
    p.ackResponse.prevLogIndex = p.prevLogIndex := by
  unfold Peer.ackResponse Peer.resetHeartbeatInterval
  split <;> rfl

theorem Peer.ackResponse_name (p : Peer) : p.ackResponse.name = p.name := by
  unfold Peer.ackResponse Peer.resetHeartbeatInterval
  split <;> rfl

theorem Peer.applyAppendResponse_success (p : Peer) (serverTerm : Nat)
    (req : AppendEntriesRequest) (resp : AppendEntriesResponse)
    (last : LogEntry) (hs : resp.success = true)
    (hl : req.entries.getLast? = some last) :
    p.applyAppendResponse serverTerm req resp =
      ({ p with prevLogIndex := last.index },
       if last.term = serverTerm then { resp with append := true }
       else resp) := by
  simp [Peer.applyAppendResponse, hs, hl]

theorem Peer.applyAppendResponse_fail_stale (p : Peer) (serverTerm : Nat)
    (req : AppendEntriesRequest) (resp : AppendEntriesResponse)
    (hs : resp.success = false) (ht : resp.term > serverTerm) :
    p.applyAppendResponse serverTerm req resp = (p, resp) := by
  simp [Peer.applyAppendResponse, hs, ht]

theorem Peer.applyAppendResponse_fail_commit (p : Peer) (serverTerm : Nat)
    (req : AppendEntriesRequest) (resp : AppendEntriesResponse)
    (hs : resp.success = false) (ht : ¬ resp.term > serverTerm)
    (heq : resp.term = req.term) (hge : resp.commitIndex ≥ p.prevLogIndex) :
    p.applyAppendResponse serverTerm req resp =
      ({ p with prevLogIndex := resp.commitIndex }, resp) := by
  simp only [Peer.applyAppendResponse, hs, Bool.false_eq_true, if_false,
    if_neg ht,
    if_pos (show resp.term = req.term ∧ resp.commitIndex ≥ p.prevLogIndex
      from ⟨heq, hge⟩)]

theorem Peer.applyAppendResponse_fail_dec (p : Peer) (serverTerm : Nat)
    (req : AppendEntriesRequest) (resp : AppendEntriesResponse)
    (hs : resp.success = false) (ht : ¬ resp.term > serverTerm)
    (hc : ¬(resp.term = req.term ∧ resp.commitIndex ≥ p.prevLogIndex))
    (hp : p.prevLogIndex > 0) :
    p.applyAppendResponse serverTerm req resp =
      ({ p with prevLogIndex :=
          if p.prevLogIndex - 1 > resp.index then resp.index
          else p.prevLogIndex - 1 }, resp) := by
  simp only [Peer.applyAppendResponse, hs, Bool.false_eq_true, if_false,
    if_neg ht, if_neg hc, if_pos hp]

theorem Peer.applyAppendResponse_failedHeartbeats (p : Peer)
    (serverTerm : Nat) (req : AppendEntriesRequest)
    (resp : AppendEntriesResponse) :
    (p.applyAppendResponse serverTerm req resp).1.failedHeartbeats
      = p.failedHeartbeats := by
  unfold Peer.applyAppendResponse
  repeat' split
  all_goals rfl

theorem Peer.backoffHeartbeat_eq (p : Peer) :
    p.backoffHeartbeat =
      { p with failedHeartbeats := p.failedHeartbeats + 1,
               tickerInterval :=
                 p.heartbeatInterval * 2 ^ (p.failedHeartbeats + 1) } := rfl

theorem Peer.sendSnapshotRequest_frame (p : Peer) (serverName : String)
    (snap : Snapshot) (offerRespOpt : Option SnapshotResponse)
    (recoveryRespOpt : Option SnapshotRecoveryResponse) :
    (p.sendSnapshotRequest serverName snap offerRespOpt
        recoveryRespOpt).peer.failedHeartbeats = p.failedHeartbeats ∧
    (p.sendSnapshotRequest serverName snap offerRespOpt
        recoveryRespOpt).peer.tickerInterval = p.tickerInterval ∧
    (p.sendSnapshotRequest serverName snap offerRespOpt
        recoveryRespOpt).intervalEvent = false := by
  unfold Peer.sendSnapshotRequest Peer.sendSnapshotRecoveryRequest
  rcases offerRespOpt with _ | o
  · exact ⟨rfl, rfl, rfl⟩
  cases ho : o.success
  · simp [ho]
  rcases recoveryRespOpt with _ | r
  · simp [ho]
  cases hr : r.success
  · simp [ho, hr]
  · simp [ho, hr]

theorem failStep_iterate (serverTerm : Nat) (req : AppendEntriesRequest)
    (k : Nat) (p : Peer) :
    ((failStep serverTerm req)^[k] p).failedHeartbeats
        = p.failedHeartbeats + k ∧
    ((failStep serverTerm req)^[k] p).heartbeatInterval
        = p.heartbeatInterval ∧
    ((failStep serverTerm req)^[k] p).prevLogIndex = p.prevLogIndex ∧
    (0 < k → ((failStep serverTerm req)^[k] p).tickerInterval
        = p.heartbeatInterval * 2 ^ (p.failedHeartbeats + k)) := by
  induction k generalizing p with
  | zero => simp
  | succ n ih =>
      rw [Function.iterate_succ_apply]
      rcases ih (failStep serverTerm req p) with ⟨h1, h2, h3, h4⟩
      have hf : (failStep serverTerm req p).failedHeartbeats
          = p.failedHeartbeats + 1 := rfl
      have hi : (failStep serverTerm req p).heartbeatInterval
          = p.heartbeatInterval := rfl
      have hp : (failStep serverTerm req p).prevLogIndex
          = p.prevLogIndex := rfl
      have htick : (failStep serverTerm req p).tickerInterval
          = p.heartbeatInterval * 2 ^ (p.failedHeartbeats + 1) := rfl
      refine ⟨?_, ?_, ?_, fun _ => ?_⟩
      · rw [h1, hf]; omega
      · rw [h2, hi]
      · rw [h3, hp]
      · rcases Nat.eq_zero_or_pos n with hn | hn
        · subst hn
          simpa using htick
        · rw [h4 hn, hi, hf]
          have hexp : p.failedHeartbeats + 1 + n
              = p.failedHeartbeats + (n + 1) := by omega
          rw [hexp]

/-- Claim C1: on an append-entries exchange that receives a successful
response to a request carrying at least one entry, the peer's matched
index (`prevLogIndex`) becomes exactly the index of the last entry sent,
and when that last entry's term equals the leader's current term the
forwarded response carries the `append` marker set to true. -/
theorem append_success_advances_matched_index (p : Peer) (serverTerm : Nat)
    (req : AppendEntriesRequest) (resp : AppendEntriesResponse)
    (last : LogEntry) (hs : resp.success = true)
    (hl : req.entries.getLast? = some last) :
    (p.sendAppendEntriesRequest serverTerm req (some resp)).peer.prevLogIndex
        = last.index ∧
    (last.term = serverTerm →
      (p.sendAppendEntriesRequest serverTerm req (some resp)).sentAsync
        = some { resp with append := true, peer := p.name }) := by
  have key := Peer.applyAppendResponse_success p.ackResponse serverTerm req
    resp last hs hl
  constructor
  · show (p.ackResponse.applyAppendResponse serverTerm req
        resp).1.prevLogIndex = last.index
    rw [key]
  · intro hterm
    have hsend : (p.sendAppendEntriesRequest serverTerm req
        (some resp)).sentAsync
        = some { (p.ackResponse.applyAppendResponse serverTerm req
            resp).2 with peer := p.name } := rfl
    rw [hsend, key]
    simp [hterm]

/-- Claim C2: an append-entries failure response whose term is at most the
local term and whose commit index is below the matched index decrements
the matched index by one and then clamps it to the reported conflict
index when that is smaller; the new value stays strictly below the old
matched index (in particular it never wraps below zero). -/
theorem append_fail_decrement_clamps (p : Peer) (serverTerm : Nat)
    (req : AppendEntriesRequest) (resp : AppendEntriesResponse)
    (hs : resp.success = false) (ht : resp.term ≤ serverTerm)
    (hc : resp.commitIndex < p.prevLogIndex) :
    (p.sendAppendEntriesRequest serverTerm req (some resp)).peer.prevLogIndex
        = (if p.prevLogIndex - 1 > resp.index then resp.index
           else p.prevLogIndex - 1) ∧
    (p.sendAppendEntriesRequest serverTerm req (some resp)).peer.prevLogIndex
        < p.prevLogIndex := by
  have hpos : 0 < p.prevLogIndex := Nat.lt_of_le_of_lt (Nat.zero_le _) hc
  have ht2 : ¬ resp.term > serverTerm := not_lt.mpr ht
  have hb2 : ¬(resp.term = req.term ∧
      resp.commitIndex ≥ p.ackResponse.prevLogIndex) := by
    rw [Peer.ackResponse_prevLogIndex]
    rintro ⟨-, h2⟩
    omega
  have hp2 : p.ackResponse.prevLogIndex > 0 := by
    rw [Peer.ackResponse_prevLogIndex]
    exact hpos
  have key := Peer.applyAppendResponse_fail_dec p.ackResponse serverTerm req
    resp hs ht2 hb2 hp2
  have hmain : (p.sendAppendEntriesRequest serverTerm req
      (some resp)).peer.prevLogIndex
      = (if p.prevLogIndex - 1 > resp.index then resp.index
         else p.prevLogIndex - 1) := by
    show (p.ackResponse.applyAppendResponse serverTerm req
        resp).1.prevLogIndex = _
    rw [key]
    simp [Peer.ackResponse_prevLogIndex]
  refine ⟨hmain, ?_⟩
  rw [hmain]
  split <;> omega

/-- Claim C3: for an append-entries failure response whose term equals the
request's term (request terms never exceed the current term, which is the
hypothesis `hreq`) and whose reported commit index is at least the
matched index, the matched index is set directly to that commit index
with no decrement; and a failure response whose term exceeds the local
term leaves the matched index untouched. -/
theorem append_fail_commit_recovery_and_stale_term (p : Peer)
    (serverTerm : Nat) (req : AppendEntriesRequest)
    (resp : AppendEntriesResponse) (hs : resp.success = false)
    (hreq : req.term ≤ serverTerm) :
    (resp.term = req.term → resp.commitIndex ≥ p.prevLogIndex →
      (p.sendAppendEntriesRequest serverTerm req
        (some resp)).peer.prevLogIndex = resp.commitIndex) ∧
    (resp.term > serverTerm →
      (p.sendAppendEntriesRequest serverTerm req
        (some resp)).peer.prevLogIndex = p.prevLogIndex) := by
  constructor
  · intro heq hge
    have ht2 : ¬ resp.term > serverTerm := by omega
    have key := Peer.applyAppendResponse_fail_commit p.ackResponse serverTerm
      req resp hs ht2 heq
      (by rw [Peer.ackResponse_prevLogIndex]; exact hge)
    show (p.ackResponse.applyAppendResponse serverTerm req
        resp).1.prevLogIndex = resp.commitIndex
    rw [key]
  · intro ht
    have key := Peer.applyAppendResponse_fail_stale p.ackResponse serverTerm
      req resp hs ht
    show (p.ackResponse.applyAppendResponse serverTerm req
        resp).1.prevLogIndex = p.prevLogIndex
    rw [key, Peer.ackResponse_prevLogIndex]

/-- Claim C4: `flush` falls back to a snapshot offer exactly when the log
reports no retrievable entries after the peer's matched index, and
otherwise sends an append-entries request built from the current term,
the matched index, the reported previous term, the leader's commit
index, the leader's name and the returned batch. -/
theorem flush_snapshot_fallback (p : Peer) (s : ServerView) :
    ((s.getEntriesAfter p.prevLogIndex s.maxLogEntriesPerRequest).1 = none →
      p.flush s = FlushAction.snapshotOffer
        (newSnapshotRequest s.name s.snapshot)) ∧
    (∀ entries : List LogEntry,
      (s.getEntriesAfter p.prevLogIndex s.maxLogEntriesPerRequest).1
          = some entries →
      p.flush s = FlushAction.appendEntries
        { term := s.currentTerm, prevLogIndex := p.prevLogIndex,
          prevLogTerm :=
            (s.getEntriesAfter p.prevLogIndex s.maxLogEntriesPerRequest).2,
          commitIndex := s.commitIndex, leaderName := s.name,
          entries := entries }) := by
  constructor
  · intro h
    simp [Peer.flush, h]
  · intro entries h
    simp [Peer.flush, h]

/-- Claim C5: in the second snapshot phase, a successful recovery response
sets the matched index to the snapshot's last included index and is
forwarded to the server's inbound-response channel; a rejection or a
missing response leaves the matched index unmodified and forwards
nothing. -/
theorem snapshot_recovery_reconciliation (p : Peer) (serverName : String)
    (snap : Snapshot) (resp : SnapshotRecoveryResponse) :
    (resp.success = true →
      (p.sendSnapshotRecoveryRequest serverName snap
        (some resp)).peer.prevLogIndex = snap.lastIndex ∧
      (p.sendSnapshotRecoveryRequest serverName snap (some resp)).sentAsync
          = some resp) ∧
    (resp.success = false →
      (p.sendSnapshotRecoveryRequest serverName snap (some resp)).peer = p ∧
      (p.sendSnapshotRecoveryRequest serverName snap (some resp)).sentAsync
          = none) ∧
    ((p.sendSnapshotRecoveryRequest serverName snap none).peer = p ∧
     (p.sendSnapshotRecoveryRequest serverName snap none).sentAsync
        = none) := by
  refine ⟨fun h => ?_, fun h => ?_, ⟨rfl, rfl⟩⟩
  · constructor <;>
      simp [Peer.sendSnapshotRecoveryRequest, newSnapshotRecoveryRequest, h]
  · constructor <;>
      simp [Peer.sendSnapshotRecoveryRequest, newSnapshotRecoveryRequest, h]

/-- Claim C6 counterexample: a snapshot-path exchange in which both the
offer response and the recovery response are received (and both accept)
leaves a nonzero `failedHeartbeats` at its old value 3 — so the counter
is not reset to 0 whenever any response is received from the peer. -/
theorem snapshot_response_leaves_failed_heartbeats :
    ((⟨"peer1", "addr", 10, 50, 3, 400⟩ : Peer).sendSnapshotRequest "ldr"
        ⟨20, 2⟩ (some ⟨true⟩) (some ⟨true, 2, 20⟩)).peer.failedHeartbeats
      = 3 := rfl

/-- Claim C6 (amended): `failedHeartbeats` is reset to 0 exactly when an
append-entries round-trip receives a response, regardless of
accept/reject; an append-entries round-trip with no response increments
it, and snapshot-path traffic never changes it. -/
theorem failed_heartbeats_reset_only_on_append_response (p : Peer)
    (serverTerm : Nat) (req : AppendEntriesRequest)
    (resp : AppendEntriesResponse) (serverName : String) (snap : Snapshot)
    (offerRespOpt : Option SnapshotResponse)
    (recoveryRespOpt : Option SnapshotRecoveryResponse) :
    (p.sendAppendEntriesRequest serverTerm req
        (some resp)).peer.failedHeartbeats = 0 ∧
    (p.sendAppendEntriesRequest serverTerm req
        none).peer.failedHeartbeats = p.failedHeartbeats + 1 ∧
    (p.sendSnapshotRequest serverName snap offerRespOpt
        recoveryRespOpt).peer.failedHeartbeats = p.failedHeartbeats := by
  refine ⟨?_, rfl, (Peer.sendSnapshotRequest_frame p serverName snap
    offerRespOpt recoveryRespOpt).1⟩
  show (p.ackResponse.applyAppendResponse serverTerm req
      resp).1.failedHeartbeats = 0
  rw [Peer.applyAppendResponse_failedHeartbeats,
    Peer.ackResponse_failedHeartbeats]

/-- Claim C7: a flush whose transport call returns no response increments
`failedHeartbeats`, reprograms the ticker to
`heartbeatInterval * 2 ^ failedHeartbeats`, dispatches the
interval-changed event and leaves the matched index alone; `k`
consecutive such failures from a healthy state yield the interval
`base * 2 ^ k`; and a single received response resets the exponent
to 0. -/
theorem append_no_response_backoff (p : Peer) (serverTerm : Nat)
    (req : AppendEntriesRequest) (k : Nat) :
    ((p.sendAppendEntriesRequest serverTerm req
        none).peer.failedHeartbeats = p.failedHeartbeats + 1 ∧
     (p.sendAppendEntriesRequest serverTerm req none).peer.tickerInterval
        = p.heartbeatInterval * 2 ^ (p.failedHeartbeats + 1) ∧
     (p.sendAppendEntriesRequest serverTerm req none).peer.prevLogIndex
        = p.prevLogIndex ∧
     (p.sendAppendEntriesRequest serverTerm req none).intervalEvent
        = true) ∧
    (p.failedHeartbeats = 0 → 0 < k →
      ((failStep serverTerm req)^[k] p).tickerInterval
        = p.heartbeatInterval * 2 ^ k) ∧
    (∀ resp : AppendEntriesResponse,
      (p.sendAppendEntriesRequest serverTerm req
        (some resp)).peer.failedHeartbeats = 0) := by
  refine ⟨⟨rfl, rfl, rfl, rfl⟩, fun h0 hk => ?_, fun resp => ?_⟩
  · rw [(failStep_iterate serverTerm req k p).2.2.2 hk, h0, Nat.zero_add]
  · show (p.ackResponse.applyAppendResponse serverTerm req
        resp).1.failedHeartbeats = 0
    rw [Peer.applyAppendResponse_failedHeartbeats,
      Peer.ackResponse_failedHeartbeats]

/-- Claim C8: a stop signal with the flush flag set makes the heartbeat
loop perform exactly one more flush and exit, ignoring any later
wake-ups; with the flag clear it exits at once with no further flush. -/
theorem heartbeat_stop_flush_count {σ : Type} (flushFn : σ → σ) (s : σ)
    (doFlush : Bool) (rest : List HeartbeatSignal) :
    heartbeatRun flushFn s (HeartbeatSignal.stop doFlush :: rest)
      = if doFlush then (flushFn s, 1) else (s, 0) := rfl

/-- Claim C9: `sendVoteRequest` delivers the response with the peer's
identity attached exactly when the transport produced one, and delivers
nothing to the results channel otherwise. -/
theorem vote_request_delivery (p : Peer) (req : RequestVoteRequest)
    (resp : RequestVoteResponse) :
    (p.sendVoteRequest req (some resp)).2
        = some { resp with peer := some p.name } ∧
    (p.sendVoteRequest req none).2 = none := ⟨rfl, rfl⟩

/-- Claim C10: the snapshot path never touches the back-off state: for any
transport outcome of the two phases (in particular when either phase gets
no response), `failedHeartbeats` and the ticker period are unchanged and
no interval-changed event is dispatched. -/
theorem snapshot_path_no_backoff (p : Peer) (serverName : String)
    (snap : Snapshot) (offerRespOpt : Option SnapshotResponse)
    (recoveryRespOpt : Option SnapshotRecoveryResponse) :
    (p.sendSnapshotRequest serverName snap offerRespOpt
        recoveryRespOpt).peer.failedHeartbeats = p.failedHeartbeats ∧
    (p.sendSnapshotRequest serverName snap offerRespOpt
        recoveryRespOpt).peer.tickerInterval = p.tickerInterval ∧
    (p.sendSnapshotRequest serverName snap offerRespOpt
        recoveryRespOpt).intervalEvent = false :=
  Peer.sendSnapshotRequest_frame p serverName snap offerRespOpt
    recoveryRespOpt

/-- Witness for the C1 theorem at the spec's scenario: matched index 10,
entries 11-15 of term 2, leader term 2, successful response. -/
theorem append_success_advances_matched_index_witness :
    ((⟨"peer1", "addr", 10, 50, 0, 50⟩ : Peer).sendAppendEntriesRequest 2
        ⟨2, 10, 1, 8, "ldr", [⟨11, 2⟩, ⟨12, 2⟩, ⟨13, 2⟩, ⟨14, 2⟩, ⟨15, 2⟩]⟩
        (some ⟨true, 2, 8, 0, false, ""⟩)).peer.prevLogIndex = 15 ∧
    ((⟨"peer1", "addr", 10, 50, 0, 50⟩ : Peer).sendAppendEntriesRequest 2
        ⟨2, 10, 1, 8, "ldr", [⟨11, 2⟩, ⟨12, 2⟩, ⟨13, 2⟩, ⟨14, 2⟩, ⟨15, 2⟩]⟩
        (some ⟨true, 2, 8, 0, false, ""⟩)).sentAsync
      = some ⟨true, 2, 8, 0, true, "peer1"⟩ := by
  have h := append_success_advances_matched_index
    ⟨"peer1", "addr", 10, 50, 0, 50⟩ 2
    ⟨2, 10, 1, 8, "ldr", [⟨11, 2⟩, ⟨12, 2⟩, ⟨13, 2⟩, ⟨14, 2⟩, ⟨15, 2⟩]⟩
    ⟨true, 2, 8, 0, false, ""⟩ ⟨15, 2⟩ rfl rfl
  exact ⟨h.1, h.2 rfl⟩

/-- Witness for the C2 theorem at the spec's scenario: matched index 10,
conflict index 3, commit index 2, response term 4 at local term 5 — the
matched index becomes 3. -/
theorem append_fail_decrement_clamps_witness :
    ((⟨"peer1", "addr", 10, 50, 0, 50⟩ : Peer).sendAppendEntriesRequest 5
        ⟨5, 10, 1, 8, "ldr", []⟩
        (some ⟨false, 4, 2, 3, false, ""⟩)).peer.prevLogIndex = 3 ∧
    ((⟨"peer1", "addr", 10, 50, 0, 50⟩ : Peer).sendAppendEntriesRequest 5
        ⟨5, 10, 1, 8, "ldr", []⟩
        (some ⟨false, 4, 2, 3, false, ""⟩)).peer.prevLogIndex < 10 := by
  have h := append_fail_decrement_clamps ⟨"peer1", "addr", 10, 50, 0, 50⟩ 5
    ⟨5, 10, 1, 8, "ldr", []⟩ ⟨false, 4, 2, 3, false, ""⟩ rfl (by decide)
    (by decide)
  exact ⟨h.1, h.2⟩

/-- Witness for the C3 theorem at the spec's scenario: a failure response
with term equal to the request term and commit index 12 at matched index
10 moves the matched index to 12 without decrement. -/
theorem append_fail_commit_recovery_and_stale_term_witness :
    ((⟨"peer1", "addr", 10, 50, 0, 50⟩ : Peer).sendAppendEntriesRequest 2
        ⟨2, 10, 1, 8, "ldr", []⟩
        (some ⟨false, 2, 12, 0, false, ""⟩)).peer.prevLogIndex = 12 :=
  (append_fail_commit_recovery_and_stale_term
    ⟨"peer1", "addr", 10, 50, 0, 50⟩ 2 ⟨2, 10, 1, 8, "ldr", []⟩
    ⟨false, 2, 12, 0, false, ""⟩ rfl (by decide)).1 rfl (by decide)

/-- Witness for the C4 theorem: a log accessor reporting no retrievable
entries yields a snapshot offer, and one returning the batch `[entry 11]`
yields the corresponding append-entries request. -/
theorem flush_snapshot_fallback_witness :
    ((⟨"peer1", "addr", 10, 50, 0, 50⟩ : Peer).flush
        ⟨"ldr", 2, 8, 5, ⟨20, 2⟩, fun _ _ => (none, 0)⟩
      = FlushAction.snapshotOffer ⟨"ldr", 20, 2⟩) ∧
    ((⟨"peer1", "addr", 10, 50, 0, 50⟩ : Peer).flush
        ⟨"ldr", 2, 8, 5, ⟨20, 2⟩, fun i _ => (some [⟨i + 1, 2⟩], 1)⟩
      = FlushAction.appendEntries ⟨2, 10, 1, 8, "ldr", [⟨11, 2⟩]⟩) := by
  constructor
  · exact (flush_snapshot_fallback ⟨"peer1", "addr", 10, 50, 0, 50⟩
      ⟨"ldr", 2, 8, 5, ⟨20, 2⟩, fun _ _ => (none, 0)⟩).1 rfl
  · exact (flush_snapshot_fallback ⟨"peer1", "addr", 10, 50, 0, 50⟩
      ⟨"ldr", 2, 8, 5, ⟨20, 2⟩, fun i _ => (some [⟨i + 1, 2⟩], 1)⟩).2
      [⟨11, 2⟩] rfl

/-- Witness for the C5 theorem: an accepted recovery response for a
snapshot whose last included index is 20 moves the matched index from 10
to 20 and is forwarded. -/
theorem snapshot_recovery_reconciliation_witness :
    ((⟨"peer1", "addr", 10, 50, 0, 50⟩ : Peer).sendSnapshotRecoveryRequest
        "ldr" ⟨20, 2⟩ (some ⟨true, 2, 20⟩)).peer.prevLogIndex = 20 ∧
    ((⟨"peer1", "addr", 10, 50, 0, 50⟩ : Peer).sendSnapshotRecoveryRequest
        "ldr" ⟨20, 2⟩ (some ⟨true, 2, 20⟩)).sentAsync
      = some ⟨true, 2, 20⟩ :=
  (snapshot_recovery_reconciliation ⟨"peer1", "addr", 10, 50, 0, 50⟩ "ldr"
    ⟨20, 2⟩ ⟨true, 2, 20⟩).1 rfl

/-- Witness for the C7 theorem: three consecutive no-response flushes from
a healthy peer with base interval 50 leave the ticker at 400 = 50 * 8. -/
theorem append_no_response_backoff_witness :
    ((failStep 2 ⟨2, 10, 1, 8, "ldr", []⟩)^[3]
        (⟨"peer1", "addr", 10, 50, 0, 50⟩ : Peer)).tickerInterval = 400 := by
  rw [(append_no_response_backoff ⟨"peer1", "addr", 10, 50, 0, 50⟩ 2
    ⟨2, 10, 1, 8, "ldr", []⟩ 3).2.1 rfl (by decide)]
  norm_num

end Raft
